import Mathlib

/-!
Verification of the diesel_duckdb adapter: a shallow embedding of the
error translator (src/error.rs), the query builder (src/query_builder.rs),
the LIMIT/OFFSET clause fragments (src/query_fragments.rs), the bind
collector (src/bind_collector.rs) and the row/field/cursor materialization
path (src/connection.rs), together with theorems settling the specified
properties. Strings are modelled as lists of characters so that byte/char
positions, substring search and quote counting are explicit.
-/

namespace DieselDuckDb

/-! ## Error taxonomy (diesel side, as used by src/error.rs) -/

/-- The diesel `DatabaseErrorKind` values produced by this adapter. -/
inductive DatabaseErrorKind where
  | uniqueViolation
  | notNullViolation
  | foreignKeyViolation
  | checkViolation
  | unknown
deriving DecidableEq, Repr

/-- `DuckDbErrorInformation` from src/error.rs: the structured payload
attached to a classified database error. -/
structure DuckDbErrorInformation where
  error_message : List Char
  table_name : Option (List Char)
  column_name : Option (List Char)
  constraint_name : Option (List Char)
  statement_position : Option Int
deriving DecidableEq, Repr

/-- The diesel error constructors produced by `map_diesel_error`. -/
inductive DieselError where
  | databaseError (kind : DatabaseErrorKind) (info : DuckDbErrorInformation)
  | serializationError (message : List Char)
  | deserializationError (message : List Char)
deriving DecidableEq, Repr

/-- The native `duckdb::Error` variants matched by `map_diesel_error`
in src/error.rs; `otherVariant` stands for every remaining variant,
carrying its display string, exactly as the catch-all arm does. -/
inductive DuckdbError where
  | duckDBFailure (error_code : Nat) (message : Option (List Char))
  | invalidColumnIndex (index : Nat)
  | invalidColumnName (name : List Char)
  | invalidColumnType (index : Nat) (name type_name : List Char)
  | invalidParameterCount (expected actual : Nat)
  | statementChangedRows (count : Nat)
  | invalidPath (path : List Char)
  | toSqlConversionFailure (err : List Char)
  | fromSqlConversionFailure (index : Nat) (name err : List Char)
  | utf8Error (err : List Char)
  | nulError (err : List Char)
  | otherVariant (description : List Char)
deriving DecidableEq, Repr

/-! ## String search primitives (Rust `str::find` / `str::contains`) -/

/-- Index of the first occurrence of `pat` in `s` (Rust `str::find` with a
string pattern), `none` when `pat` does not occur. -/
def findSub (pat : List Char) : List Char → Option Nat
  | [] => if pat.isPrefixOf [] then some 0 else none
  | c :: cs => if pat.isPrefixOf (c :: cs) then some 0 else (findSub pat cs).map (· + 1)

/-- Rust `str::contains` with a string pattern. -/
def strContains (s pat : List Char) : Bool :=
  (findSub pat s).isSome

/-- Rust `str::to_lowercase`, restricted to the ASCII range the classified
messages use. -/
def toLowerStr (s : List Char) : List Char :=
  s.map Char.toLower

/-- Rust `str::trim_matches('"')`: strip every leading and trailing
double-quote character. -/
def trimQuotes (s : List Char) : List Char :=
  ((s.dropWhile (· = '"')).reverse.dropWhile (· = '"')).reverse

/-! ## Name extractors (src/error.rs lines 164-198) -/

/-- Terminator predicate used by `extract_table_name` and
`extract_column_name`: whitespace, period or double quote. -/
def tableNameEnd (c : Char) : Bool :=
  c.isWhitespace || c = '.' || c = '"'

/-- Terminator predicate used by `extract_constraint_name`: whitespace or
double quote (no period). -/
def constraintNameEnd (c : Char) : Bool :=
  c.isWhitespace || c = '"'

/-- Common shape of the three extractors: find the marker, slice after it,
find a terminator character, take the token before it, strip quotes.
If the marker does not occur, or no terminator character follows it,
the result is `none`. -/
def extractAfterMarker (marker : List Char) (isEnd : Char → Bool)
    (message : List Char) : Option (List Char) :=
  match findSub marker message with
  | none => none
  | some pos =>
    let after := message.drop (pos + marker.length)
    match after.findIdx? isEnd with
    | none => none
    | some e => some (trimQuotes (after.take e))

/-- `extract_table_name` from src/error.rs. -/
def extract_table_name (message : List Char) : Option (List Char) :=
  extractAfterMarker ("table ".toList) tableNameEnd message

/-- `extract_column_name` from src/error.rs. -/
def extract_column_name (message : List Char) : Option (List Char) :=
  extractAfterMarker ("column ".toList) tableNameEnd message

/-- `extract_constraint_name` from src/error.rs. -/
def extract_constraint_name (message : List Char) : Option (List Char) :=
  extractAfterMarker ("constraint ".toList) constraintNameEnd message

/-! ## Message classification and the error translator (src/error.rs) -/

/-- The message-based kind classification inside the `DuckDBFailure` arm of
`map_diesel_error`. -/
def classifyMessage (message : List Char) : DatabaseErrorKind :=
  let message_lower := toLowerStr message
  if strContains message_lower ("unique".toList)
      || strContains message_lower ("duplicate".toList) then
    DatabaseErrorKind.uniqueViolation
  else if strContains message_lower ("not null".toList) then
    DatabaseErrorKind.notNullViolation
  else if strContains message_lower ("foreign key".toList) then
    DatabaseErrorKind.foreignKeyViolation
  else if strContains message_lower ("check constraint".toList) then
    DatabaseErrorKind.checkViolation
  else
    DatabaseErrorKind.unknown

/-- Decimal rendering of a number, for the formatted fallback messages. -/
def natToChars (n : Nat) : List Char :=
  (toString n).toList

/-- The error-mapping closure of `MapDieselError::map_diesel_error`
(src/error.rs lines 48-161), one arm per matched native variant. -/
def map_diesel_error : DuckdbError → DieselError
  | DuckdbError.duckDBFailure error_code message_opt =>
    let message :=
      message_opt.getD (("DuckDB error code: ".toList) ++ natToChars error_code)
    DieselError.databaseError (classifyMessage message)
      { error_message := message
        table_name := extract_table_name message
        column_name := extract_column_name message
        constraint_name := extract_constraint_name message
        statement_position := none }
  | DuckdbError.invalidColumnIndex index =>
    DieselError.deserializationError
      (("Invalid column index: ".toList) ++ natToChars index)
  | DuckdbError.invalidColumnName name =>
    DieselError.deserializationError (("Invalid column name: ".toList) ++ name)
  | DuckdbError.invalidColumnType index name type_name =>
    DieselError.deserializationError
      (("Invalid column type at index ".toList) ++ natToChars index
        ++ (", name '".toList) ++ name ++ ("': ".toList) ++ type_name)
  | DuckdbError.invalidParameterCount expected actual =>
    DieselError.databaseError DatabaseErrorKind.unknown
      { error_message :=
          ("Invalid parameter count: expected ".toList) ++ natToChars expected
            ++ (", got ".toList) ++ natToChars actual
        table_name := none
        column_name := none
        constraint_name := none
        statement_position := none }
  | DuckdbError.statementChangedRows count =>
    DieselError.deserializationError
      (("Unexpected number of changed rows: ".toList) ++ natToChars count)
  | DuckdbError.invalidPath path =>
    DieselError.deserializationError (("Invalid path: ".toList) ++ path)
  | DuckdbError.toSqlConversionFailure err =>
    DieselError.serializationError err
  | DuckdbError.fromSqlConversionFailure index name err =>
    DieselError.deserializationError
      (("Conversion failure at column ".toList) ++ natToChars index
        ++ (" ('".toList) ++ name ++ ("'): ".toList) ++ err)
  | DuckdbError.utf8Error err =>
    DieselError.deserializationError (("UTF-8 conversion error: ".toList) ++ err)
  | DuckdbError.nulError err =>
    DieselError.deserializationError (("Null byte in string: ".toList) ++ err)
  | DuckdbError.otherVariant description =>
    DieselError.databaseError DatabaseErrorKind.unknown
      { error_message := description
        table_name := none
        column_name := none
        constraint_name := none
        statement_position := none }

/-- The structured kind of a translated error, when it is a database error. -/
def dieselErrorKind : DieselError → Option DatabaseErrorKind
  | DieselError.databaseError kind _ => some kind
  | _ => none

/-! ## A spec-side reformulation of the extractors (amended claim C2) -/

/-- Amended description of the extractors, written as a direct scan: at the
first position where the marker occurs, take the characters after it that
precede a terminator and strip quotes; yield `none` when the marker never
occurs or no terminator character follows it. -/
def specExtract (marker : List Char) (isEnd : Char → Bool) : List Char → Option (List Char)
  | [] => none
  | c :: cs =>
    if marker.isPrefixOf (c :: cs) then
      let after := (c :: cs).drop marker.length
      if after.any isEnd then
        some (trimQuotes (after.takeWhile (fun x => ! isEnd x)))
      else
        none
    else
      specExtract marker isEnd cs

/-! ## Query text builder (src/query_builder.rs) -/

/-- `DuckDBQueryBuilder`: the accumulated SQL text. -/
structure DuckDBQueryBuilder where
  sql : List Char
deriving DecidableEq, Repr

/-- Rust `identifier.replace('"', "\x22\x22")`: each double-quote character
becomes two. -/
def replaceQuote : List Char → List Char
  | [] => []
  | c :: cs => if c = '"' then '"' :: '"' :: replaceQuote cs else c :: replaceQuote cs

/-- `push_sql` from src/query_builder.rs: verbatim append. -/
def push_sql (b : DuckDBQueryBuilder) (sql : List Char) : DuckDBQueryBuilder :=
  ⟨b.sql ++ sql⟩

/-- `push_identifier` from src/query_builder.rs: an opening quote, the
identifier with embedded quotes doubled, a closing quote. -/
def push_identifier (b : DuckDBQueryBuilder) (identifier : List Char) : DuckDBQueryBuilder :=
  ⟨(b.sql ++ ['"']) ++ replaceQuote identifier ++ ['"']⟩

/-- `push_bind_param` from src/query_builder.rs: the positional placeholder. -/
def push_bind_param (b : DuckDBQueryBuilder) : DuckDBQueryBuilder :=
  ⟨b.sql ++ ['?']⟩

/-- `finish` from src/query_builder.rs. -/
def builderFinish (b : DuckDBQueryBuilder) : List Char :=
  b.sql

/-! ## LIMIT/OFFSET clause fragments (src/query_fragments.rs) -/

/-- A query fragment's `walk_ast`: it extends the accumulated SQL text or
fails with a diesel error. -/
def Frag : Type :=
  String → Except DieselError String

/-- The four static `LimitOffsetClause` type shapes, each holding the
`walk_ast` of its sub-clauses. -/
inductive LimitOffsetClause where
  | noLimitNoOffset
  | limitOnly (limit_clause : Frag)
  | offsetOnly (offset_clause : Frag)
  | limitAndOffset (limit_clause offset_clause : Frag)

/-- The four `QueryFragment` impls for the static shapes
(src/query_fragments.rs lines 12-49). -/
def LimitOffsetClause.walk_ast : LimitOffsetClause → String → Except DieselError String
  | LimitOffsetClause.noLimitNoOffset, sql => Except.ok sql
  | LimitOffsetClause.limitOnly limit_clause, sql => limit_clause sql
  | LimitOffsetClause.offsetOnly offset_clause, sql => offset_clause sql
  | LimitOffsetClause.limitAndOffset limit_clause offset_clause, sql => do
    let sql1 ← limit_clause sql
    offset_clause sql1

/-- `BoxedLimitOffsetClause`: runtime-optional limit and offset fragments. -/
structure BoxedLimitOffsetClause where
  limit : Option Frag
  offset : Option Frag

/-- The `QueryFragment` impl for `BoxedLimitOffsetClause`
(src/query_fragments.rs lines 55-65): emit the limit when present, then the
offset when present. -/
def BoxedLimitOffsetClause.walk_ast (clause : BoxedLimitOffsetClause) (sql : String) :
    Except DieselError String := do
  let sql1 ←
    match clause.limit with
    | some limit => limit sql
    | none => pure sql
  match clause.offset with
  | some offset => offset sql1
  | none => pure sql1

/-- The four `IntoBoxedClause` impls (src/query_fragments.rs lines 71-123). -/
def into_boxed : LimitOffsetClause → BoxedLimitOffsetClause
  | LimitOffsetClause.noLimitNoOffset => ⟨none, none⟩
  | LimitOffsetClause.limitOnly limit_clause => ⟨some limit_clause, none⟩
  | LimitOffsetClause.offsetOnly offset_clause => ⟨none, some offset_clause⟩
  | LimitOffsetClause.limitAndOffset limit_clause offset_clause =>
    ⟨some limit_clause, some offset_clause⟩

/-- The static shape corresponding to a pair of optional limit/offset
fragments, as the spec's ClauseComposer describes it. -/
def staticShapeOf : Option Frag → Option Frag → LimitOffsetClause
  | none, none => LimitOffsetClause.noLimitNoOffset
  | some limit, none => LimitOffsetClause.limitOnly limit
  | none, some offset => LimitOffsetClause.offsetOnly offset
  | some limit, some offset => LimitOffsetClause.limitAndOffset limit offset

/-- A fragment that appends a fixed piece of text and never fails. -/
def appendFrag (fragment : String) : Frag :=
  fun sql => Except.ok (sql ++ fragment)

/-- Modelled from the spec: the limit fragment rendered by the upstream
query-building layer for a concrete limit value (the adapter repository
only composes these fragments; their text, e.g. "LIMIT 3", comes from the
spec's ClauseComposer examples). -/
def limitFragment (n : Int) : String :=
  "LIMIT " ++ toString n

/-- Modelled from the spec: the offset fragment rendered by the upstream
query-building layer for a concrete offset value, e.g. "OFFSET 2". -/
def offsetFragment (n : Int) : String :=
  "OFFSET " ++ toString n

/-! ## Scalar values and the bind collector (src/bind_collector.rs) -/

/-- The engine's tagged scalar value (`duckdb::types::Value`), restricted to
the closed set of tags the spec's ScalarValue names; numeric and temporal
payloads are carried opaquely, only the `null` tag is ever inspected by the
adapter itself. -/
inductive Value where
  | null
  | boolean (b : Bool)
  | int8 (n : Int)
  | int16 (n : Int)
  | int32 (n : Int)
  | int64 (n : Int)
  | float32 (bits : Nat)
  | float64 (bits : Nat)
  | text (s : List Char)
  | blob (bytes : List Nat)
  | date (days : Int)
  | time (micros : Int)
  | timestamp (micros : Int)
deriving DecidableEq, Repr

/-- `duckdb::types::ToSqlOutput`: owned or borrowed native value. -/
inductive ToSqlOutput where
  | owned (value : Value)
  | borrowed (value : Value)
deriving DecidableEq, Repr

/-- diesel's `IsNull` flag returned by a `ToSql` conversion. -/
inductive IsNull where
  | yes
  | no
deriving DecidableEq, Repr

/-- `DuckDbBindCollector`: the positional list of bound values. -/
structure DuckDbBindCollector where
  binds : List ToSqlOutput
deriving DecidableEq, Repr

/-- `push_bound_value` from src/bind_collector.rs: start the output buffer
at an owned Null, run the caller-supplied `to_sql` conversion on it
(mapping its failure to a SerializationError), then append the buffer when
the conversion reports non-null and an explicit owned Null when it reports
null. -/
def push_bound_value (collector : DuckDbBindCollector)
    (to_sql : ToSqlOutput → Except (List Char) (ToSqlOutput × IsNull)) :
    Except DieselError DuckDbBindCollector :=
  match to_sql (ToSqlOutput.owned Value.null) with
  | Except.error e => Except.error (DieselError.serializationError e)
  | Except.ok (buffer, is_null) =>
    let bind_value :=
      match is_null with
      | IsNull.no => buffer
      | IsNull.yes => ToSqlOutput.owned Value.null
    Except.ok ⟨collector.binds ++ [bind_value]⟩

/-- `push_null_value` from src/bind_collector.rs: append an owned Null
directly. -/
def push_null_value (collector : DuckDbBindCollector) :
    Except DieselError DuckDbBindCollector :=
  Except.ok ⟨collector.binds ++ [ToSqlOutput.owned Value.null]⟩

/-- `into_params` from src/bind_collector.rs: the positional parameter
list, in push order. -/
def into_params (collector : DuckDbBindCollector) : List ToSqlOutput :=
  collector.binds

/-! ## Rows, fields and the cursor (src/connection.rs) -/

/-- `DuckDbRow`: materialized values and column names. -/
structure DuckDbRow where
  values : List Value
  column_names : List (List Char)
deriving DecidableEq, Repr

/-- `DuckDbField`: an index into an owning row. -/
structure DuckDbField where
  row : DuckDbRow
  idx : Nat
deriving DecidableEq, Repr

/-- `field_count` from the `Row` impl: the number of captured values. -/
def DuckDbRow.field_count (row : DuckDbRow) : Nat :=
  row.values.length

/-- `Field::field_name`: the column name at the field's index, if any. -/
def DuckDbField.field_name (f : DuckDbField) : Option (List Char) :=
  f.row.column_names[f.idx]?

/-- `Field::is_null` (src/connection.rs lines 144-149): true exactly when
the captured value at the field's index is the explicit Null variant. -/
def DuckDbField.is_null (f : DuckDbField) : Bool :=
  match f.row.values[f.idx]? with
  | some Value.null => true
  | _ => false

/-- `Field::value` (src/connection.rs lines 151-157): the captured value at
the field's index, cloned into an owned `ToSqlOutput`. -/
def DuckDbField.value (f : DuckDbField) : Option ToSqlOutput :=
  (f.row.values[f.idx]?).map ToSqlOutput.owned

/-- `RowIndex<usize>` for `DuckDbRow`: a position resolves to itself when
in bounds. -/
def rowIndexPosition (row : DuckDbRow) (idx : Nat) : Option Nat :=
  if idx < row.field_count then some idx else none

/-- The enumerate-and-compare loop of `RowIndex<&str>` for `DuckDbRow`:
first index whose column name equals the requested name. -/
def findNameIdx (field_name : List Char) : List (List Char) → Nat → Option Nat
  | [], _ => none
  | name :: rest, i =>
    if name = field_name then some i else findNameIdx field_name rest (i + 1)

/-- `RowIndex<&str>` for `DuckDbRow` (src/connection.rs lines 116-125). -/
def rowIndexName (row : DuckDbRow) (field_name : List Char) : Option Nat :=
  findNameIdx field_name row.column_names 0

/-- `Row::get` resolved through `RowIndex<usize>`. -/
def DuckDbRow.get_by_position (row : DuckDbRow) (idx : Nat) : Option DuckDbField :=
  (rowIndexPosition row idx).map (fun i => ⟨row, i⟩)

/-- `Row::get` resolved through `RowIndex<&str>`. -/
def DuckDbRow.get_by_name (row : DuckDbRow) (field_name : List Char) : Option DuckDbField :=
  (rowIndexName row field_name).map (fun i => ⟨row, i⟩)

/-- `DuckDbCursor`: the materialized rows still to be yielded. -/
structure DuckDbCursor where
  rows : List DuckDbRow
deriving DecidableEq, Repr

/-- The `Iterator` impl for `DuckDbCursor` (src/connection.rs lines 35-41):
pop the next materialized row, wrapped in `Ok`. -/
def DuckDbCursor.next (cursor : DuckDbCursor) :
    Option (Except DieselError DuckDbRow) × DuckDbCursor :=
  match cursor.rows with
  | [] => (none, cursor)
  | row :: rest => (some (Except.ok row), ⟨rest⟩)

/-- Repeatedly call `next` (at most `fuel` times), collecting every yielded
item. -/
def drainFuel : Nat → DuckDbCursor → List (Except DieselError DuckDbRow)
  | 0, _ => []
  | fuel + 1, cursor =>
    match cursor.next with
    | (none, _) => []
    | (some item, rest) => item :: drainFuel fuel rest

/-- Exhaust a cursor through its `next` operation. -/
def DuckDbCursor.drain (cursor : DuckDbCursor) : List (Except DieselError DuckDbRow) :=
  drainFuel cursor.rows.length cursor

/-- A native result row as `from_duckdb_row` consumes it: a column count
and fallible per-index value and name accessors. -/
structure NativeRow where
  column_count : Nat
  value_at : Nat → Except (List Char) Value
  name_at : Nat → Except (List Char) (List Char)

/-- The column loop of `from_duckdb_row` (src/connection.rs lines 52-77):
for each index, read the value then the name, mapping either failure to a
DeserializationError. -/
def readColumns (row : NativeRow) : List Nat → Except DieselError (List Value × List (List Char))
  | [] => Except.ok ([], [])
  | i :: rest => do
    let value ← (row.value_at i).mapError DieselError.deserializationError
    let name ← (row.name_at i).mapError DieselError.deserializationError
    let (values, names) ← readColumns row rest
    Except.ok (value :: values, name :: names)

/-- `from_duckdb_row` from src/connection.rs. -/
def from_duckdb_row (row : NativeRow) : Except DieselError DuckDbRow :=
  (readColumns row (List.range row.column_count)).map (fun vn => ⟨vn.1, vn.2⟩)

/-- The row-materialization loop of `load` (src/connection.rs lines
198-222): the successive native `rows.next()` results are consumed in
order; an engine failure or a conversion failure aborts with that error,
otherwise every converted row is collected. -/
def materializeRows : List (Except DieselError NativeRow) → Except DieselError (List DuckDbRow)
  | [] => Except.ok []
  | Except.error e :: _ => Except.error e
  | Except.ok nativeRow :: rest => do
    let row ← from_duckdb_row nativeRow
    let rows ← materializeRows rest
    Except.ok (row :: rows)

/-- `load` (src/connection.rs lines 178-223), with statement preparation
and parameter binding abstracted into the stream of native row results:
materialize every row eagerly, then hand the finished list to a cursor. -/
def load (results : List (Except DieselError NativeRow)) : Except DieselError DuckDbCursor :=
  (materializeRows results).map DuckDbCursor.mk

/-! ### Helper lemmas (moved below, after all definitions) -/

theorem findSub_isSome_iff (pat s : List Char) :
    (findSub pat s).isSome = true ↔ pat <:+: s := by
  induction s with
  | nil =>
    by_cases h : pat = []
    · subst h
      simp [findSub, List.isPrefixOf]
    · simp only [findSub]
      rw [if_neg]
      · simp [List.infix_nil, h]
      · cases pat with
        | nil => exact absurd rfl h
        | cons a as => simp [List.isPrefixOf]
  | cons c cs ih =>
    simp only [findSub]
    by_cases h : pat.isPrefixOf (c :: cs)
    · rw [if_pos h]
      simp only [Option.isSome_some, true_iff]
      exact (List.isPrefixOf_iff_prefix.mp h).isInfix
    · rw [if_neg h]
      rw [List.infix_cons_iff]
      have hpre : ¬ pat <+: (c :: cs) := fun hp => h (List.isPrefixOf_iff_prefix.mpr hp)
      simp [Option.isSome_map, ih, hpre]

theorem strContains_iff (s pat : List Char) :
    strContains s pat = true ↔ pat <:+: s :=
  findSub_isSome_iff pat s

theorem findIdx_none_iff_any (p : Char → Bool) (s : List Char) :
    s.findIdx? p = none ↔ s.any p = false := by
  simp [List.findIdx?_eq_none_iff, List.any_eq_false]

theorem findIdx_some_take (p : Char → Bool) (s : List Char) (e : Nat)
    (h : s.findIdx? p = some e) :
    s.take e = s.takeWhile (fun x => ! p x) := by
  induction s generalizing e with
  | nil => simp [List.findIdx?_nil] at h
  | cons c cs ih =>
    cases hc : p c with
    | true =>
      rw [List.findIdx?_cons, hc] at h
      simp only [if_true, Option.some.injEq] at h
      subst h
      simp [List.takeWhile_cons, hc]
    | false =>
      rw [List.findIdx?_cons, hc] at h
      simp only [Bool.false_eq_true, if_false, List.findIdx?_succ,
        Option.map_eq_some'] at h
      obtain ⟨e', he', rfl⟩ := h
      simp [List.takeWhile_cons, hc, List.take_succ_cons, ih e' he']

theorem extractAfterMarker_cons_of_not (marker : List Char) (isEnd : Char → Bool)
    (c : Char) (cs : List Char) (h : marker.isPrefixOf (c :: cs) = false) :
    extractAfterMarker marker isEnd (c :: cs) = extractAfterMarker marker isEnd cs := by
  simp only [extractAfterMarker, findSub, h, Bool.false_eq_true, if_false]
  cases hfs : findSub marker cs with
  | none => simp
  | some pos =>
    have harith : pos + 1 + marker.length = (pos + marker.length) + 1 := by omega
    simp only [Option.map_some', harith, List.drop_succ_cons]

theorem extractAfterMarker_eq_spec (marker : List Char) (hm : marker ≠ [])
    (isEnd : Char → Bool) (msg : List Char) :
    extractAfterMarker marker isEnd msg = specExtract marker isEnd msg := by
  induction msg with
  | nil =>
    have hpre : marker.isPrefixOf ([] : List Char) = false := by
      cases marker with
      | nil => exact absurd rfl hm
      | cons a as => simp [List.isPrefixOf]
    simp [extractAfterMarker, findSub, specExtract, hpre]
  | cons c cs ih =>
    cases h : marker.isPrefixOf (c :: cs) with
    | true =>
      simp only [extractAfterMarker, findSub, h, if_true, specExtract, Nat.zero_add]
      cases hfi : ((c :: cs).drop marker.length).findIdx? isEnd with
      | none =>
        have hany := (findIdx_none_iff_any isEnd ((c :: cs).drop marker.length)).mp hfi
        simp [hany]
      | some e =>
        have hany : ((c :: cs).drop marker.length).any isEnd = true := by
          cases hany : ((c :: cs).drop marker.length).any isEnd with
          | true => rfl
          | false =>
            rw [(findIdx_none_iff_any isEnd _).mpr hany] at hfi
            exact absurd hfi (by simp)
        have htake := findIdx_some_take isEnd _ e hfi
        simp [hany, htake]
    | false =>
      rw [extractAfterMarker_cons_of_not marker isEnd c cs h, ih]
      simp only [specExtract, h, Bool.false_eq_true, if_false]

theorem strContains_true_of {s pat : List Char} (h : pat <:+: s) :
    strContains s pat = true :=
  (strContains_iff s pat).mpr h

theorem strContains_false_of {s pat : List Char} (h : ¬ pat <:+: s) :
    strContains s pat = false := by
  cases hc : strContains s pat with
  | false => rfl
  | true => exact absurd ((strContains_iff s pat).mp hc) h

theorem count_replaceQuote (l : List Char) :
    (replaceQuote l).count '"' = 2 * l.count '"' := by
  induction l with
  | nil => simp [replaceQuote]
  | cons c cs ih =>
    by_cases h : c = '"'
    · subst h
      simp [replaceQuote, List.count_cons, ih]
      omega
    · simp [replaceQuote, h, List.count_cons, ih]

/-! ## Claim theorems -/

/-- C1: for every native engine failure carrying a message, the error
translator assigns the structured kind by case-insensitive substring match
with fixed precedence: "unique" or "duplicate" gives UniqueViolation;
otherwise "not null" gives NotNullViolation; otherwise "foreign key" gives
ForeignKeyViolation; otherwise "check constraint" gives CheckViolation;
otherwise the kind is Unknown. -/
theorem C1_message_classification (error_code : Nat) (msg : List Char) :
    (("unique".toList <:+: toLowerStr msg ∨ "duplicate".toList <:+: toLowerStr msg) →
      dieselErrorKind (map_diesel_error (DuckdbError.duckDBFailure error_code (some msg))) =
        some DatabaseErrorKind.uniqueViolation) ∧
    (¬ ("unique".toList <:+: toLowerStr msg ∨ "duplicate".toList <:+: toLowerStr msg) →
      ("not null".toList <:+: toLowerStr msg) →
      dieselErrorKind (map_diesel_error (DuckdbError.duckDBFailure error_code (some msg))) =
        some DatabaseErrorKind.notNullViolation) ∧
    (¬ ("unique".toList <:+: toLowerStr msg ∨ "duplicate".toList <:+: toLowerStr msg) →
      ¬ ("not null".toList <:+: toLowerStr msg) →
      ("foreign key".toList <:+: toLowerStr msg) →
      dieselErrorKind (map_diesel_error (DuckdbError.duckDBFailure error_code (some msg))) =
        some DatabaseErrorKind.foreignKeyViolation) ∧
    (¬ ("unique".toList <:+: toLowerStr msg ∨ "duplicate".toList <:+: toLowerStr msg) →
      ¬ ("not null".toList <:+: toLowerStr msg) →
      ¬ ("foreign key".toList <:+: toLowerStr msg) →
      ("check constraint".toList <:+: toLowerStr msg) →
      dieselErrorKind (map_diesel_error (DuckdbError.duckDBFailure error_code (some msg))) =
        some DatabaseErrorKind.checkViolation) ∧
    (¬ ("unique".toList <:+: toLowerStr msg ∨ "duplicate".toList <:+: toLowerStr msg) →
      ¬ ("not null".toList <:+: toLowerStr msg) →
      ¬ ("foreign key".toList <:+: toLowerStr msg) →
      ¬ ("check constraint".toList <:+: toLowerStr msg) →
      dieselErrorKind (map_diesel_error (DuckdbError.duckDBFailure error_code (some msg))) =
        some DatabaseErrorKind.unknown) := by
  have hbase : dieselErrorKind (map_diesel_error
      (DuckdbError.duckDBFailure error_code (some msg))) = some (classifyMessage msg) := rfl
  refine ⟨?_, ?_, ?_, ?_, ?_⟩
  · intro h1
    have hb : (strContains (toLowerStr msg) ("unique".toList)
        || strContains (toLowerStr msg) ("duplicate".toList)) = true := by
      rcases h1 with h | h
      · rw [strContains_true_of h, Bool.true_or]
      · rw [strContains_true_of h, Bool.or_true]
    rw [hbase]
    simp only [classifyMessage]
    rw [hb]
    rfl
  · intro hn1 h2
    rw [not_or] at hn1
    obtain ⟨hA, hB⟩ := hn1
    rw [hbase]
    simp only [classifyMessage]
    rw [strContains_false_of hA, strContains_false_of hB, strContains_true_of h2]
    rfl
  · intro hn1 hn2 h3
    rw [not_or] at hn1
    obtain ⟨hA, hB⟩ := hn1
    rw [hbase]
    simp only [classifyMessage]
    rw [strContains_false_of hA, strContains_false_of hB,
      strContains_false_of hn2, strContains_true_of h3]
    rfl
  · intro hn1 hn2 hn3 h4
    rw [not_or] at hn1
    obtain ⟨hA, hB⟩ := hn1
    rw [hbase]
    simp only [classifyMessage]
    rw [strContains_false_of hA, strContains_false_of hB,
      strContains_false_of hn2, strContains_false_of hn3, strContains_true_of h4]
    rfl
  · intro hn1 hn2 hn3 hn4
    rw [not_or] at hn1
    obtain ⟨hA, hB⟩ := hn1
    rw [hbase]
    simp only [classifyMessage]
    rw [strContains_false_of hA, strContains_false_of hB,
      strContains_false_of hn2, strContains_false_of hn3, strContains_false_of hn4]
    rfl

/-- Witness for C1: a concrete failure whose message contains "UNIQUE" is
classified as a unique violation. -/
theorem C1_message_classification_witness :
    dieselErrorKind (map_diesel_error (DuckdbError.duckDBFailure 1
      (some ("UNIQUE constraint failed: t.c".toList)))) =
      some DatabaseErrorKind.uniqueViolation :=
  (C1_message_classification 1 ("UNIQUE constraint failed: t.c".toList)).1
    (Or.inl ⟨[], (" constraint failed: t.c".toList), by decide⟩)

/-- C2 counterexample: the claim says a present marker yields the following
token (terminated by whitespace, quote or period) and only a missing marker
yields none. But on "table users" the marker is present and the code still
returns none (no terminator character follows the token), and on
"constraint a.b " the constraint extractor does not stop at the period the
claim prescribes: it returns "a.b", not "a". -/
theorem C2_counterexample :
    extract_table_name ("table users".toList) = none ∧
    extract_constraint_name ("constraint a.b ".toList) = some ("a.b".toList) := by
  constructor
  · decide
  · decide

/-- C2 (amended): each extractor scans for the first occurrence of its
marker and returns the token following it up to the next terminator
character — whitespace, quote or period for table and column names, but
only whitespace or quote for constraint names — with surrounding double
quotes stripped; it returns none (never an error) when the marker is
absent or when no terminator character occurs after the marker. -/
theorem C2_extractors_amended :
    (∀ message, extract_table_name message
        = specExtract ("table ".toList) tableNameEnd message) ∧
    (∀ message, extract_column_name message
        = specExtract ("column ".toList) tableNameEnd message) ∧
    (∀ message, extract_constraint_name message
        = specExtract ("constraint ".toList) constraintNameEnd message) :=
  ⟨fun message => extractAfterMarker_eq_spec _ (by decide) _ message,
   fun message => extractAfterMarker_eq_spec _ (by decide) _ message,
   fun message => extractAfterMarker_eq_spec _ (by decide) _ message⟩

/-- C3: push_identifier appends exactly one opening quote, the identifier
with each embedded quote doubled, and one closing quote; the appended
fragment holds an even number of quote characters, begins and ends with a
quote, and appending it preserves evenness of the quote count of the
accumulated SQL (no unterminated quote sequence). -/
theorem C3_push_identifier_quoting (b : DuckDBQueryBuilder) (identifier : List Char) :
    (push_identifier b identifier).sql
        = b.sql ++ ('"' :: (replaceQuote identifier ++ ['"'])) ∧
    (replaceQuote identifier).count '"' = 2 * identifier.count '"' ∧
    ('"' :: (replaceQuote identifier ++ ['"'])).count '"' % 2 = 0 ∧
    ('"' :: (replaceQuote identifier ++ ['"'])).head? = some '"' ∧
    ('"' :: (replaceQuote identifier ++ ['"'])).getLast? = some '"' ∧
    (b.sql.count '"' % 2 = 0 →
      (push_identifier b identifier).sql.count '"' % 2 = 0) := by
  have hfrag : ('"' :: (replaceQuote identifier ++ ['"'])).count '"'
      = 2 * identifier.count '"' + 2 := by
    simp [List.count_cons, List.count_append, count_replaceQuote]
  refine ⟨?_, count_replaceQuote identifier, ?_, rfl, ?_, ?_⟩
  · simp [push_identifier]
  · omega
  · show (('"' :: replaceQuote identifier) ++ ['"']).getLast? = some '"'
    rw [List.getLast?_concat]
  · intro hsql
    have happ : (push_identifier b identifier).sql
        = b.sql ++ ('"' :: (replaceQuote identifier ++ ['"'])) := by
      simp [push_identifier]
    rw [happ, List.count_append, hfrag]
    omega

/-- Witness for C3: pushing an identifier with an embedded quote onto an
empty builder leaves an even number of quote characters. -/
theorem C3_push_identifier_quoting_witness :
    (push_identifier ⟨[]⟩ ("a\"b".toList)).sql.count '"' % 2 = 0 :=
  (C3_push_identifier_quoting ⟨[]⟩ ("a\"b".toList)).2.2.2.2.2 (by decide)

/-- C4: rendering the boxed (dynamic) limit/offset clause produces the same
result — accumulated SQL text and error behavior alike — as rendering the
corresponding static clause shape with the same fragments, both through the
spec's optional-pair correspondence and through the code's `into_boxed`. -/
theorem C4_boxed_matches_static :
    (∀ (limit offset : Option Frag) (sql : String),
      BoxedLimitOffsetClause.walk_ast ⟨limit, offset⟩ sql
        = (staticShapeOf limit offset).walk_ast sql) ∧
    (∀ (clause : LimitOffsetClause) (sql : String),
      (into_boxed clause).walk_ast sql = clause.walk_ast sql) := by
  have h : ∀ (limit offset : Option Frag) (sql : String),
      BoxedLimitOffsetClause.walk_ast ⟨limit, offset⟩ sql
        = (staticShapeOf limit offset).walk_ast sql := by
    intro limit offset sql
    cases limit with
    | none =>
      cases offset with
      | none => rfl
      | some o =>
        cases ho : o sql <;>
          simp [BoxedLimitOffsetClause.walk_ast, staticShapeOf,
            LimitOffsetClause.walk_ast, ho]
    | some l =>
      cases offset with
      | none =>
        cases hl : l sql <;>
          simp [BoxedLimitOffsetClause.walk_ast, staticShapeOf,
            LimitOffsetClause.walk_ast, hl]
      | some o =>
        cases hl : l sql <;>
          simp [BoxedLimitOffsetClause.walk_ast, staticShapeOf,
            LimitOffsetClause.walk_ast, hl]
  refine ⟨h, ?_⟩
  intro clause sql
  cases clause with
  | noLimitNoOffset => exact h none none sql
  | limitOnly limit_clause => exact h (some limit_clause) none sql
  | offsetOnly offset_clause => exact h none (some offset_clause) sql
  | limitAndOffset limit_clause offset_clause =>
    exact h (some limit_clause) (some offset_clause) sql

/-- C5: the four static shapes render empty output, only the limit
fragment, only the offset fragment, and the limit fragment followed by the
offset fragment in that fixed order; concretely limit 3 alone yields
"LIMIT 3", offset 2 alone yields "OFFSET 2", limit 2 with offset 1 yields
"LIMIT 2" then "OFFSET 1", and neither of those outputs is empty. -/
theorem C5_static_shapes_rendering :
    (∀ sql, LimitOffsetClause.noLimitNoOffset.walk_ast sql = Except.ok sql) ∧
    (∀ sql fragment, (LimitOffsetClause.limitOnly (appendFrag fragment)).walk_ast sql
        = Except.ok (sql ++ fragment)) ∧
    (∀ sql fragment, (LimitOffsetClause.offsetOnly (appendFrag fragment)).walk_ast sql
        = Except.ok (sql ++ fragment)) ∧
    (∀ sql fragL fragO,
      (LimitOffsetClause.limitAndOffset (appendFrag fragL) (appendFrag fragO)).walk_ast sql
        = Except.ok ((sql ++ fragL) ++ fragO)) ∧
    (LimitOffsetClause.limitOnly (appendFrag (limitFragment 3))).walk_ast ""
        = Except.ok "LIMIT 3" ∧
    (LimitOffsetClause.offsetOnly (appendFrag (offsetFragment 2))).walk_ast ""
        = Except.ok "OFFSET 2" ∧
    (LimitOffsetClause.limitAndOffset (appendFrag (limitFragment 2))
        (appendFrag (offsetFragment 1))).walk_ast ""
        = Except.ok (limitFragment 2 ++ offsetFragment 1) ∧
    ("LIMIT 3" : String) ≠ "" ∧
    ("OFFSET 2" : String) ≠ "" ∧
    limitFragment 2 ++ offsetFragment 1 ≠ "" :=
  ⟨fun _ => rfl, fun _ _ => rfl, fun _ _ => rfl, fun _ _ _ => rfl,
   rfl, rfl, rfl, by decide, by decide, by decide⟩

/-- C6: push_bound_value appends exactly one entry — the converted buffer
when the conversion reports non-null, the explicit Null value when it
reports null (whatever was written into the intermediate buffer) — and it
returns an error exactly when the caller-supplied conversion fails, that
error always being a SerializationError. -/
theorem C6_push_bound_value (collector : DuckDbBindCollector)
    (to_sql : ToSqlOutput → Except (List Char) (ToSqlOutput × IsNull)) :
    (∀ buffer, to_sql (ToSqlOutput.owned Value.null) = Except.ok (buffer, IsNull.no) →
      push_bound_value collector to_sql = Except.ok ⟨collector.binds ++ [buffer]⟩) ∧
    (∀ buffer, to_sql (ToSqlOutput.owned Value.null) = Except.ok (buffer, IsNull.yes) →
      push_bound_value collector to_sql
        = Except.ok ⟨collector.binds ++ [ToSqlOutput.owned Value.null]⟩) ∧
    (∀ e, to_sql (ToSqlOutput.owned Value.null) = Except.error e →
      push_bound_value collector to_sql
        = Except.error (DieselError.serializationError e)) ∧
    (∀ result, push_bound_value collector to_sql = Except.ok result →
      result.binds.length = collector.binds.length + 1) ∧
    ((∃ e', push_bound_value collector to_sql = Except.error e')
      ↔ (∃ e, to_sql (ToSqlOutput.owned Value.null) = Except.error e)) ∧
    (∀ e', push_bound_value collector to_sql = Except.error e' →
      ∃ e, e' = DieselError.serializationError e) := by
  refine ⟨?_, ?_, ?_, ?_, ?_, ?_⟩
  · intro buffer h
    simp [push_bound_value, h]
  · intro buffer h
    simp [push_bound_value, h]
  · intro e h
    simp [push_bound_value, h]
  · intro result h
    cases hts : to_sql (ToSqlOutput.owned Value.null) with
    | error e =>
      simp [push_bound_value, hts] at h
    | ok pair =>
      obtain ⟨buffer, flag⟩ := pair
      simp only [push_bound_value, hts, Except.ok.injEq] at h
      subst h
      simp
  · constructor
    · rintro ⟨e', h⟩
      cases hts : to_sql (ToSqlOutput.owned Value.null) with
      | error e => exact ⟨e, rfl⟩
      | ok pair =>
        obtain ⟨buffer, flag⟩ := pair
        simp [push_bound_value, hts] at h
    · rintro ⟨e, h⟩
      exact ⟨DieselError.serializationError e, by simp [push_bound_value, h]⟩
  · intro e' h
    cases hts : to_sql (ToSqlOutput.owned Value.null) with
    | error e =>
      simp only [push_bound_value, hts, Except.error.injEq] at h
      exact ⟨e, h.symm⟩
    | ok pair =>
      obtain ⟨buffer, flag⟩ := pair
      simp [push_bound_value, hts] at h

/-- Witness for C6: a conversion that scribbles a text value into the
intermediate buffer but reports null still binds the explicit Null value. -/
theorem C6_push_bound_value_witness :
    push_bound_value ⟨[]⟩
      (fun _ => Except.ok (ToSqlOutput.owned (Value.text ("a".toList)), IsNull.yes))
      = Except.ok ⟨[ToSqlOutput.owned Value.null]⟩ :=
  (C6_push_bound_value ⟨[]⟩
    (fun _ => Except.ok (ToSqlOutput.owned (Value.text ("a".toList)), IsNull.yes))).2.1
    (ToSqlOutput.owned (Value.text ("a".toList))) rfl

/-- C7: Field.is_null and Field.value are non-failing; at a valid index
is_null is true exactly when the captured value is the explicit Null
variant, value returns exactly the captured value, and push_null_value
stores the explicit Null value in the bind list. -/
theorem C7_field_null_semantics (row : DuckDbRow) (idx : Nat)
    (h : idx < row.values.length) :
    ((DuckDbField.mk row idx).is_null = true ↔ row.values[idx] = Value.null) ∧
    (DuckDbField.mk row idx).value = some (ToSqlOutput.owned (row.values[idx])) ∧
    (∀ collector, push_null_value collector
        = Except.ok ⟨collector.binds ++ [ToSqlOutput.owned Value.null]⟩) := by
  have hget : row.values[idx]? = some (row.values[idx]) := List.getElem?_eq_getElem h
  refine ⟨?_, ?_, fun collector => rfl⟩
  · simp only [DuckDbField.is_null, hget]
    cases hv : row.values[idx] <;> simp
  · simp [DuckDbField.value, hget]

/-- Witness for C7: a field over a captured Null value reports is_null. -/
theorem C7_field_null_semantics_witness :
    (DuckDbField.mk ⟨[Value.null], [("a".toList)]⟩ 0).is_null = true :=
  ((C7_field_null_semantics ⟨[Value.null], [("a".toList)]⟩ 0 (by decide)).1).mpr rfl

theorem findNameIdx_some (field_name : List Char) (l : List (List Char)) (k i : Nat)
    (h : findNameIdx field_name l k = some i) :
    ∃ d, i = k + d ∧ l[d]? = some field_name ∧
      ∀ j, j < d → l[j]? ≠ some field_name := by
  induction l generalizing k with
  | nil => simp [findNameIdx] at h
  | cons name rest ih =>
    simp only [findNameIdx] at h
    by_cases hn : name = field_name
    · rw [if_pos hn] at h
      obtain rfl : k = i := Option.some.inj h
      exact ⟨0, by omega, by simp [hn], fun j hj => absurd hj (Nat.not_lt_zero j)⟩
    · rw [if_neg hn] at h
      obtain ⟨d, hd, hget, hfirst⟩ := ih (k + 1) h
      refine ⟨d + 1, by omega, by simpa using hget, ?_⟩
      intro j hj
      cases j with
      | zero => simp [hn]
      | succ j' =>
        have hj' := hfirst j' (by omega)
        simpa using hj'

theorem findNameIdx_none (field_name : List Char) (l : List (List Char)) (k : Nat)
    (h : ∀ n ∈ l, n ≠ field_name) : findNameIdx field_name l k = none := by
  induction l generalizing k with
  | nil => rfl
  | cons name rest ih =>
    have hn : ¬ name = field_name := h name (by simp)
    simp only [findNameIdx, if_neg hn]
    exact ih (k + 1) (fun n hm => h n (by simp [hm]))

theorem findNameIdx_some_of_mem (field_name : List Char) (l : List (List Char)) (k : Nat)
    (h : field_name ∈ l) : ∃ i, findNameIdx field_name l k = some i := by
  induction l generalizing k with
  | nil => simp at h
  | cons name rest ih =>
    by_cases hn : name = field_name
    · exact ⟨k, by simp only [findNameIdx, if_pos hn]⟩
    · have hmem : field_name ∈ rest := by
        rcases List.mem_cons.mp h with heq | hmem
        · exact absurd heq.symm hn
        · exact hmem
      obtain ⟨i, hi⟩ := ih (k + 1) hmem
      exact ⟨i, by simp only [findNameIdx, if_neg hn]; exact hi⟩

/-- C8: Row.get never fails; by position it returns the field at that index
exactly when the index is below the field count, and by name it returns the
field at the first index whose column name equals the requested name —
whenever the requested name occurs among the column names the lookup
succeeds at that first matching index — or none when no column matches. -/
theorem C8_row_get (row : DuckDbRow) :
    (∀ idx, idx < row.field_count → row.get_by_position idx = some ⟨row, idx⟩) ∧
    (∀ idx, ¬ idx < row.field_count → row.get_by_position idx = none) ∧
    (∀ field_name i, rowIndexName row field_name = some i →
      row.get_by_name field_name = some ⟨row, i⟩ ∧
      row.column_names[i]? = some field_name ∧
      ∀ j, j < i → row.column_names[j]? ≠ some field_name) ∧
    (∀ field_name, field_name ∈ row.column_names →
      ∃ i, row.get_by_name field_name = some ⟨row, i⟩ ∧
        row.column_names[i]? = some field_name ∧
        ∀ j, j < i → row.column_names[j]? ≠ some field_name) ∧
    (∀ field_name, (∀ n ∈ row.column_names, n ≠ field_name) →
      row.get_by_name field_name = none) := by
  have hchar : ∀ field_name i, rowIndexName row field_name = some i →
      row.get_by_name field_name = some ⟨row, i⟩ ∧
      row.column_names[i]? = some field_name ∧
      ∀ j, j < i → row.column_names[j]? ≠ some field_name := by
    intro field_name i h
    obtain ⟨d, hd, hget, hfirst⟩ := findNameIdx_some field_name row.column_names 0 i h
    have hdi : i = d := by omega
    subst hdi
    exact ⟨by simp [DuckDbRow.get_by_name, h], hget, hfirst⟩
  refine ⟨?_, ?_, hchar, ?_, ?_⟩
  · intro idx h
    simp [DuckDbRow.get_by_position, rowIndexPosition, h]
  · intro idx h
    simp [DuckDbRow.get_by_position, rowIndexPosition, h]
  · intro field_name hmem
    obtain ⟨i, hi⟩ := findNameIdx_some_of_mem field_name row.column_names 0 hmem
    exact ⟨i, hchar field_name i hi⟩
  · intro field_name h
    simp [DuckDbRow.get_by_name, rowIndexName,
      findNameIdx_none field_name row.column_names 0 h]

/-- Witness for C8: on a concrete two-column row, positional lookup inside
bounds returns the field, by-name lookup of the second column returns the
field at index 1, and a present name is found with its first-match
characterization. -/
theorem C8_row_get_witness :
    (DuckDbRow.mk [Value.null, Value.boolean true]
        [("a".toList), ("b".toList)]).get_by_position 1
      = some ⟨⟨[Value.null, Value.boolean true], [("a".toList), ("b".toList)]⟩, 1⟩ ∧
    (DuckDbRow.mk [Value.null, Value.boolean true]
        [("a".toList), ("b".toList)]).get_by_name ("b".toList)
      = some ⟨⟨[Value.null, Value.boolean true], [("a".toList), ("b".toList)]⟩, 1⟩ ∧
    ∃ i, (DuckDbRow.mk [Value.null, Value.boolean true]
        [("a".toList), ("b".toList)]).get_by_name ("b".toList)
      = some ⟨⟨[Value.null, Value.boolean true], [("a".toList), ("b".toList)]⟩, i⟩ ∧
      (DuckDbRow.mk [Value.null, Value.boolean true]
        [("a".toList), ("b".toList)]).column_names[i]? = some ("b".toList) ∧
      ∀ j, j < i →
        (DuckDbRow.mk [Value.null, Value.boolean true]
          [("a".toList), ("b".toList)]).column_names[j]? ≠ some ("b".toList) :=
  ⟨(C8_row_get ⟨[Value.null, Value.boolean true], [("a".toList), ("b".toList)]⟩).1
      1 (by decide),
   ((C8_row_get ⟨[Value.null, Value.boolean true], [("a".toList), ("b".toList)]⟩).2.2.1
      ("b".toList) 1 (by decide)).1,
   (C8_row_get ⟨[Value.null, Value.boolean true], [("a".toList), ("b".toList)]⟩).2.2.2.1
      ("b".toList) (by decide)⟩

/-- C9: the error translator is total over the native error type: every
variant not routed through the message classification maps to exactly one
of SerializationError (conversion to SQL), DeserializationError (column
access, changed row count, path, from-SQL conversion, UTF-8, nul byte) or
an Unknown-kind structured error (parameter-count mismatch and the
catch-all), and no variant is dropped. -/
theorem C9_variant_totality (e : DuckdbError) :
    (match e with
    | DuckdbError.duckDBFailure _ _ =>
        ∃ kind info, map_diesel_error e = DieselError.databaseError kind info
    | DuckdbError.toSqlConversionFailure _ =>
        ∃ m, map_diesel_error e = DieselError.serializationError m
    | DuckdbError.invalidColumnIndex _ =>
        ∃ m, map_diesel_error e = DieselError.deserializationError m
    | DuckdbError.invalidColumnName _ =>
        ∃ m, map_diesel_error e = DieselError.deserializationError m
    | DuckdbError.invalidColumnType _ _ _ =>
        ∃ m, map_diesel_error e = DieselError.deserializationError m
    | DuckdbError.statementChangedRows _ =>
        ∃ m, map_diesel_error e = DieselError.deserializationError m
    | DuckdbError.invalidPath _ =>
        ∃ m, map_diesel_error e = DieselError.deserializationError m
    | DuckdbError.fromSqlConversionFailure _ _ _ =>
        ∃ m, map_diesel_error e = DieselError.deserializationError m
    | DuckdbError.utf8Error _ =>
        ∃ m, map_diesel_error e = DieselError.deserializationError m
    | DuckdbError.nulError _ =>
        ∃ m, map_diesel_error e = DieselError.deserializationError m
    | DuckdbError.invalidParameterCount _ _ =>
        ∃ info, map_diesel_error e
          = DieselError.databaseError DatabaseErrorKind.unknown info
    | DuckdbError.otherVariant _ =>
        ∃ info, map_diesel_error e
          = DieselError.databaseError DatabaseErrorKind.unknown info) := by
  cases e <;> first
    | exact ⟨_, _, rfl⟩
    | exact ⟨_, rfl⟩

theorem drainFuel_eq (l : List DuckDbRow) :
    drainFuel l.length ⟨l⟩ = l.map Except.ok := by
  induction l with
  | nil => rfl
  | cons r rs ih =>
    simp [drainFuel, DuckDbCursor.next, ih]

theorem drain_eq (l : List DuckDbRow) :
    DuckDbCursor.drain ⟨l⟩ = l.map Except.ok :=
  drainFuel_eq l

theorem materializeRows_error_of_mem (results : List (Except DieselError NativeRow))
    (e : DieselError) (hmem : Except.error e ∈ results) :
    ∃ e', materializeRows results = Except.error e' := by
  induction results with
  | nil => simp at hmem
  | cons x rest ih =>
    cases x with
    | error e0 => exact ⟨e0, rfl⟩
    | ok nativeRow =>
      have hmem' : Except.error e ∈ rest := by simpa using hmem
      obtain ⟨e', he'⟩ := ih hmem'
      cases hfr : from_duckdb_row nativeRow with
      | error e1 =>
        refine ⟨e1, ?_⟩
        simp only [materializeRows]
        rw [hfr]
        rfl
      | ok row =>
        refine ⟨e', ?_⟩
        simp only [materializeRows]
        rw [hfr, he']
        rfl

/-- C10: for every cursor returned by a successful load, iteration through
next yields exactly the materialized rows, in order, each wrapped in Ok —
never an error — while a failure among the native row results makes load
itself return an error instead of a cursor. -/
theorem C10_cursor_iteration (results : List (Except DieselError NativeRow))
    (cursor : DuckDbCursor) :
    (load results = Except.ok cursor →
      cursor.drain = cursor.rows.map Except.ok ∧
      materializeRows results = Except.ok cursor.rows) ∧
    (∀ item ∈ cursor.drain, ∃ row, item = Except.ok row) ∧
    (∀ e, Except.error e ∈ results → ∃ e', load results = Except.error e') := by
  obtain ⟨rows⟩ := cursor
  refine ⟨?_, ?_, ?_⟩
  · intro h
    refine ⟨drain_eq rows, ?_⟩
    cases hm : materializeRows results with
    | error e =>
      simp [load, hm, Except.map] at h
    | ok l =>
      simp only [load, hm, Except.map, Except.ok.injEq, DuckDbCursor.mk.injEq] at h
      rw [h]
  · intro item hitem
    rw [show DuckDbCursor.mk rows = (⟨rows⟩ : DuckDbCursor) from rfl, drain_eq] at hitem
    obtain ⟨row, _, rfl⟩ := List.mem_map.mp hitem
    exact ⟨row, rfl⟩
  · intro e hmem
    obtain ⟨e', he'⟩ := materializeRows_error_of_mem results e hmem
    exact ⟨e', by simp [load, he', Except.map]⟩

/-- Witness for C10: loading one successfully decoded native row gives a
cursor that yields exactly that row, wrapped in Ok. -/
theorem C10_cursor_iteration_witness :
    DuckDbCursor.drain ⟨[⟨[Value.null], [("a".toList)]⟩]⟩
      = [Except.ok (DuckDbRow.mk [Value.null] [("a".toList)])] :=
  ((C10_cursor_iteration
      [Except.ok ⟨1, fun _ => Except.ok Value.null, fun _ => Except.ok ("a".toList)⟩]
      ⟨[⟨[Value.null], [("a".toList)]⟩]⟩).1 rfl).1

end DieselDuckDb
